import Mathlib

/-!
Verification of the hugo2wpcom content pipeline.

This file shallowly embeds the core of the repository:
* `src/hugo2wpcom/html_processor.py` (`process_html_images`),
* `src/hugo2wpcom/wp_media_uploader.py` (`upload_image_to_wordpress`),
* the metadata-normalization block of `src/main.py` (date, categories, status),
* the payload construction of `src/hugo2wpcom/wp_post_creator.py`.

Filesystem access (`os.path.exists`, `os.path.isdir`, `os.path.abspath`) is
injected as an explicit environment; the upload collaborator is an injected
function, as in the source.  HTML documents are modelled as a list of nodes
(text plus `img` tags with attributes), the granularity at which the rewrite
pass works; serialization is an explicit `render`.  The relevant parts of the
Python standard library used by the source (`urllib.parse.urlparse` path
extraction, `urllib.parse.unquote`, `os.path.join`, `os.path.basename`,
`str.split`, `str.strip`, `str.lower`) are embedded as executable functions.
-/

namespace Hugo2Wp

/-! ## Python string primitives used by the source -/

/-- Python `str.startswith` for a single literal prefix (structural, so that
concrete instances evaluate by kernel reduction). -/
def pyStartsWith (s p : String) : Bool :=
  p.data.isPrefixOf s.data

/-- Python `str.endswith` for a single literal suffix. -/
def pyEndsWith (s p : String) : Bool :=
  p.data.reverse.isPrefixOf s.data.reverse

def splitCharAux (sep : Char) : List Char → List (List Char)
  | [] => [[]]
  | c :: rest =>
    let r := splitCharAux sep rest
    if c == sep then [] :: r
    else (c :: r.headD []) :: r.tail

/-- Python `str.split(sep)` for a one-character separator: keeps empty
segments, and `"".split(sep) == [""]`. -/
def pySplit (sep : Char) (s : String) : List String :=
  (splitCharAux sep s.data).map String.mk

/-- Python `str.isspace` characters stripped by `str.strip()`. -/
def pySpace (c : Char) : Bool :=
  c == ' ' || c == '\t' || c == '\n' || c == '\r' || c == '\x0b' || c == '\x0c'

/-- Python `str.strip()` (whitespace trim on both ends). -/
def pyStrip (s : String) : String :=
  String.mk (((s.data.dropWhile pySpace).reverse.dropWhile pySpace).reverse)

/-- Python `str.lower()` (claims only exercise ASCII). -/
def pyLower (s : String) : String :=
  String.mk (s.data.map Char.toLower)

/-- Python `str.replace(a, b)` for one-character `a` and `b`. -/
def pyReplaceChar (a b : Char) (s : String) : String :=
  String.mk (s.data.map (fun c => if c == a then b else c))

/-! ## `urllib.parse.unquote`: percent-decoding

Percent triplets are decoded to bytes and the byte stream is UTF-8 decoded;
undecodable bytes become U+FFFD (Python's `errors='replace'`).  A `%` not
followed by two hex digits passes through verbatim. -/

def hexDigit (c : Char) : Option Nat :=
  if '0' ≤ c ∧ c ≤ '9' then some (c.toNat - '0'.toNat)
  else if 'a' ≤ c ∧ c ≤ 'f' then some (c.toNat - 'a'.toNat + 10)
  else if 'A' ≤ c ∧ c ≤ 'F' then some (c.toNat - 'A'.toNat + 10)
  else none

/-- UTF-8 encoding of one scalar value, as byte values. -/
def utf8Enc (n : Nat) : List Nat :=
  if n < 0x80 then [n]
  else if n < 0x800 then [0xC0 + n / 64, 0x80 + n % 64]
  else if n < 0x10000 then [0xE0 + n / 4096, 0x80 + (n / 64) % 64, 0x80 + n % 64]
  else [0xF0 + n / 262144, 0x80 + (n / 4096) % 64, 0x80 + (n / 64) % 64, 0x80 + n % 64]

/-- The percent-decoding pass: chars become their UTF-8 bytes, valid `%XX`
triplets become a single byte. -/
def pctBytes : List Char → List Nat
  | [] => []
  | '%' :: a :: b :: rest =>
    match hexDigit a, hexDigit b with
    | some x, some y => (16 * x + y) :: pctBytes rest
    | _, _ => utf8Enc '%'.toNat ++ pctBytes (a :: b :: rest)
  | c :: rest => utf8Enc c.toNat ++ pctBytes rest

def isCont (b : Nat) : Bool :=
  decide (0x80 ≤ b ∧ b < 0xC0)

/-- Replacement character U+FFFD. -/
def replChar : Char := Char.ofNat 0xFFFD

/-- UTF-8 decoding with replacement for malformed sequences.  The fuel
argument is instantiated with the byte count; every step consumes at least one
byte and exactly one unit of fuel, so the fuel never runs out. -/
def utf8DecAux : Nat → List Nat → List Char
  | 0, _ => []
  | _ + 1, [] => []
  | fuel + 1, b :: rest =>
    if b < 0x80 then Char.ofNat b :: utf8DecAux fuel rest
    else if 0xC2 ≤ b ∧ b ≤ 0xDF then
      match rest with
      | c1 :: rest' =>
        if isCont c1 then
          Char.ofNat ((b - 0xC0) * 64 + (c1 - 0x80)) :: utf8DecAux fuel rest'
        else replChar :: utf8DecAux fuel rest
      | [] => [replChar]
    else if 0xE0 ≤ b ∧ b ≤ 0xEF then
      match rest with
      | c1 :: c2 :: rest' =>
        if isCont c1 ∧ isCont c2 then
          let n := (b - 0xE0) * 4096 + (c1 - 0x80) * 64 + (c2 - 0x80)
          if 0x800 ≤ n ∧ ¬(0xD800 ≤ n ∧ n ≤ 0xDFFF) then
            Char.ofNat n :: utf8DecAux fuel rest'
          else replChar :: utf8DecAux fuel rest
        else replChar :: utf8DecAux fuel rest
      | _ => [replChar]
    else if 0xF0 ≤ b ∧ b ≤ 0xF4 then
      match rest with
      | c1 :: c2 :: c3 :: rest' =>
        if isCont c1 ∧ isCont c2 ∧ isCont c3 then
          let n := (b - 0xF0) * 262144 + (c1 - 0x80) * 4096 +
            (c2 - 0x80) * 64 + (c3 - 0x80)
          if 0x10000 ≤ n ∧ n ≤ 0x10FFFF then Char.ofNat n :: utf8DecAux fuel rest'
          else replChar :: utf8DecAux fuel rest
        else replChar :: utf8DecAux fuel rest
      | _ => [replChar]
    else replChar :: utf8DecAux fuel rest

def utf8Dec (bs : List Nat) : List Char :=
  utf8DecAux bs.length bs

/-- `urllib.parse.unquote` on a string. -/
def unquote (s : String) : String :=
  String.mk (utf8Dec (pctBytes s.data))

/-! ## `urllib.parse.urlparse(...).path`

Embeds the path extraction of CPython's `urlsplit` (scheme, netloc, fragment,
query splitting) followed by `urlparse`'s parameter splitting (`_splitparams`,
applied when the scheme is in `uses_params`). -/

def schemeChar (c : Char) : Bool :=
  c.isAlpha || c.isDigit || c == '+' || c == '-' || c == '.'

/-- Split a leading `scheme:` as CPython `urlsplit` does: the text before the
first `:` must be non-empty, start with an ASCII letter, and consist of scheme
characters.  Returns the lower-cased scheme and the remainder. -/
def splitScheme (cs : List Char) : Option (List Char) × List Char :=
  let pre := cs.takeWhile (· != ':')
  if pre.length < cs.length ∧ pre ≠ [] ∧
      (pre.headD ' ').isAlpha ∧ pre.all schemeChar then
    (some (pre.map Char.toLower), cs.drop (pre.length + 1))
  else
    (none, cs)

/-- Drop a leading `//netloc` (netloc runs to the first of `/`, `?`, `#`). -/
def dropNetloc (cs : List Char) : List Char :=
  match cs with
  | '/' :: '/' :: rest => rest.dropWhile (fun c => c != '/' && c != '?' && c != '#')
  | _ => cs

/-- Take the part before the first occurrence of `sep` (the whole list when
`sep` is absent) — Python `url.split(sep, 1)[0]`. -/
def takeUntil (sep : Char) (cs : List Char) : List Char :=
  cs.takeWhile (· != sep)

/-- The schemes for which `urlparse` splits path parameters. -/
def usesParams : List String :=
  ["", "ftp", "hdl", "prospero", "http", "imap", "https", "shttp", "rtsp",
   "rtspu", "sip", "sips", "mms", "sftp", "tel"]

/-- Index just past the last `/`, or `0` when there is none
(Python `url.rfind('/') `, used as a search start). -/
def lastSlashStart (cs : List Char) : Nat :=
  (cs.reverse.takeWhile (· != '/')).length

/-- CPython `_splitparams`: cut at the first `;` that occurs at or after the
last `/`; keep the list whole when there is no such `;`. -/
def splitParams (cs : List Char) : List Char :=
  if '/' ∈ cs then
    let keep := cs.length - lastSlashStart cs
    let tailPart := cs.drop keep
    if ';' ∈ tailPart then cs.take keep ++ takeUntil ';' tailPart else cs
  else
    takeUntil ';' cs

/-- `urllib.parse.urlparse(s).path`. -/
def urlparsePath (s : String) : String :=
  let (scheme, rest) := splitScheme s.data
  let rest := dropNetloc rest
  let rest := takeUntil '#' rest
  let rest := takeUntil '?' rest
  let schemeStr := match scheme with
    | some cs => String.mk cs
    | none => ""
  let rest := if schemeStr ∈ usesParams ∧ ';' ∈ rest then splitParams rest else rest
  String.mk rest

/-! ## `os.path` (POSIX) -/

/-- `os.path.basename`: everything after the last `/`. -/
def basename (p : String) : String :=
  String.mk ((p.data.reverse.takeWhile (· != '/')).reverse)

/-- `os.path.join` for two components (POSIX). -/
def ospJoin (a b : String) : String :=
  if pyStartsWith b "/" then b
  else if a = "" then b
  else if pyEndsWith a "/" then a ++ b
  else a ++ "/" ++ b

/-- Python `str.lstrip('/')`. -/
def lstripSlash (s : String) : String :=
  String.mk (s.data.dropWhile (· == '/'))

/-! ## HTML document model

`process_html_images` walks the `img` tags of a parsed document
(`soup.find_all('img')`) and only ever rewrites the `src`/`srcset` attributes
of those tags; everything else is reproduced verbatim by `str(soup)`.  A
document is therefore modelled as a sequence of verbatim text pieces and `img`
tags; an `img` tag carries its optional `src` and `srcset` and its remaining
attributes. -/

structure ImgAttrs where
  src : Option String
  srcset : Option String
  rest : List (String × String)
  deriving DecidableEq, Repr

inductive Node where
  | text (s : String)
  | img (t : ImgAttrs)
  deriving DecidableEq, Repr

abbrev Doc := List Node

def Node.isText : Node → Bool
  | .text _ => true
  | .img _ => false

/-- Serialization of one attribute. -/
def renderAttr (kv : String × String) : String :=
  " " ++ kv.1 ++ "=\"" ++ kv.2 ++ "\""

/-- Serialization of one node (`str(soup)`), attribute order fixed. -/
def renderNode : Node → String
  | .text s => s
  | .img t =>
    "<img" ++
      (match t.src with | some v => renderAttr ("src", v) | none => "") ++
      (match t.srcset with | some v => renderAttr ("srcset", v) | none => "") ++
      String.join (t.rest.map renderAttr) ++ "/>"

def render (d : Doc) : String :=
  String.join (d.map renderNode)

/-! ## The rewrite pass (`html_processor.process_html_images`)

The filesystem calls `os.path.exists`, `os.path.isdir` and `os.path.abspath`
are injected as an environment.  The uploader collaborator is injected as in
the source; the opaque `session` and the fixed `site_id` it also receives are
part of the closure and elided.  An upload response is `None` or a dictionary
with string fields.  The `print` diagnostics become structured log events, and
the calls made to the uploader are returned so that claims about invocation
can be stated. -/

structure Env where
  pathExists : String → Bool
  isdir : String → Bool
  abspath : String → String

abbrev RespDict := List (String × String)

/-- Python `d.get(k)` on a string-valued dictionary. -/
def dictGet (d : RespDict) (k : String) : Option String :=
  (d.find? (fun kv => kv.1 == k)).map (fun kv => kv.2)

/-- `uploader_func(session, site_id, full_local_path, image_filename, dry_run)`
with the collaborator context (`session`, `site_id`) elided. -/
abbrev Uploader := String → String → Bool → Option RespDict

/-- One upload invocation: local path, filename, dry-run flag. -/
structure Call where
  path : String
  name : String
  dry : Bool
  deriving DecidableEq, Repr

inductive LogEvent where
  | skipExternal (src : String)
  | warnAbsoluteNoStatic (src cleaned : String) (static : Option String)
  | foundLocal (src cleaned path : String)
  | newUrl (url : String)
  | removedSrcset (src : String)
  | uploadFailed (src msg : String)
  | warnNotFound (path src : String)
  | warnNoPath (src : String)
  deriving DecidableEq, Repr

/-- `original_src.startswith(('http://', 'https://', '//'))`. -/
def isExternalSrc (s : String) : Bool :=
  pyStartsWith s "http://" || pyStartsWith s "https://" || pyStartsWith s "//"

/-- Lines 55–56: `unquote(urlparse(original_src).path)`. -/
def cleanedSrcOf (s : String) : String :=
  unquote (urlparsePath s)

/-- Lines 62–73: resolve the cleaned path to a candidate local path.
`none` is the skip of lines 66–70 (absolute reference without a usable
static root); the source `continue`s there after its warning. -/
def resolveLocal (env : Env) (base_dir : String) (static_path : Option String)
    (cleaned_src : String) : Option String :=
  if pyStartsWith cleaned_src "/" then
    match static_path with
    | some sp =>
      if sp ≠ "" ∧ env.isdir sp then
        some (ospJoin sp (lstripSlash cleaned_src))
      else none
    | none => none
  else
    some (env.abspath (ospJoin base_dir cleaned_src))

/-- Result of processing one `img` tag: the (possibly rewritten) tag, its
contribution to `uploaded_images_count`, the uploader invocations, the log. -/
def processImgTag (env : Env) (base_dir : String) (static_path : Option String)
    (uploader_func : Uploader) (dry_run : Bool) (t : ImgAttrs) :
    ImgAttrs × Nat × List Call × List LogEvent :=
  match t.src with
  | none => (t, 0, [], [])
  | some original_src =>
    if isExternalSrc original_src then
      (t, 0, [], [.skipExternal original_src])
    else
      let cleaned_src := cleanedSrcOf original_src
      let image_filename := basename cleaned_src
      match resolveLocal env base_dir static_path cleaned_src with
      | none =>
        (t, 0, [], [.warnAbsoluteNoStatic original_src cleaned_src static_path])
      | some full_local_path =>
        if full_local_path ≠ "" ∧ env.pathExists full_local_path then
          let found : LogEvent := .foundLocal original_src cleaned_src full_local_path
          let upload_response := uploader_func full_local_path image_filename dry_run
          match upload_response with
          | some d =>
            match dictGet d "URL" with
            | some new_url =>
              if new_url ≠ "" then
                ({ t with src := some new_url, srcset := none }, 1,
                 [⟨full_local_path, image_filename, dry_run⟩],
                 [found, .newUrl new_url] ++
                   (if t.srcset.isSome then [.removedSrcset original_src] else []))
              else
                (t, 0, [⟨full_local_path, image_filename, dry_run⟩],
                 [found, .uploadFailed original_src
                    ((dictGet d "message").getD "Unknown error")])
            | none =>
              (t, 0, [⟨full_local_path, image_filename, dry_run⟩],
               [found, .uploadFailed original_src
                  ((dictGet d "message").getD "Unknown error")])
          | none =>
            (t, 0, [⟨full_local_path, image_filename, dry_run⟩],
             [found, .uploadFailed original_src "Unknown error or None response"])
        else if full_local_path ≠ "" then
          (t, 0, [], [.warnNotFound full_local_path original_src])
        else
          (t, 0, [], [.warnNoPath original_src])

/-- The loop of lines 43–99 over all `img` tags, in document order. -/
def processDoc (env : Env) (base_dir : String) (static_path : Option String)
    (uploader_func : Uploader) (dry_run : Bool) :
    Doc → Doc × Nat × List Call × List LogEvent
  | [] => ([], 0, [], [])
  | .text s :: ns =>
    let r := processDoc env base_dir static_path uploader_func dry_run ns
    (.text s :: r.1, r.2)
  | .img t :: ns =>
    let p := processImgTag env base_dir static_path uploader_func dry_run t
    let r := processDoc env base_dir static_path uploader_func dry_run ns
    (.img p.1 :: r.1, p.2.1 + r.2.1, p.2.2.1 ++ r.2.2.1, p.2.2.2 ++ r.2.2.2)

/-- `process_html_images(html, base_dir, session, site_id, static_path,
uploader_func, dry_run)`, at document granularity. -/
def process_html_images (env : Env) (html : Doc) (base_dir_for_images : String)
    (static_path : Option String) (uploader_func : Uploader)
    (dry_run : Bool) : Doc × Nat × List Call × List LogEvent :=
  processDoc env base_dir_for_images static_path uploader_func dry_run html

/-! ## The upload adapter (`wp_media_uploader.upload_image_to_wordpress`)

`os.path.exists` is injected through `Env`; the live REST round trip of lines
43–78 (network request plus interpretation of the `media` array, with every
exception translated to `None`) is injected as a function `net`.  The result is
paired with a flag recording whether the network was touched. -/

/-- The dry-run placeholder URL of line 34. -/
def dryRunPlaceholderUrl (site_id image_name : String) : String :=
  "https://" ++
    (if (pySplit '.' site_id).length > 1 then (pySplit '.' site_id).headD site_id
     else site_id) ++
    ".files.wordpress.com/2024/dry_run/" ++
    pyReplaceChar ' ' '_' image_name ++ "_placeholder.jpg"

/-- The dictionary returned in dry-run mode (lines 36–41). -/
def dryRunResponse (site_id image_name : String) : RespDict :=
  [("URL", dryRunPlaceholderUrl site_id image_name),
   ("id", "dry_run_12345"),
   ("mime_type", "image/jpeg"),
   ("dry_run_success", "True")]

/-- `upload_image_to_wordpress(session, site_id, image_path, image_name,
dry_run)`; second component: whether a live network upload was attempted. -/
def upload_image_to_wordpress (env : Env) (net : String → String → Option RespDict)
    (site_id image_path image_name : String) (dry_run : Bool) :
    Option RespDict × Bool :=
  if ¬ env.pathExists image_path then
    (none, false)
  else if dry_run then
    (some (dryRunResponse site_id image_name), false)
  else
    (net image_path image_name, true)

/-! ## Metadata normalization (`main.py` lines 124–176) and the post payload
(`wp_post_creator.create_wordpress_post` lines 37–47)

Front-matter values are strings, booleans, integers, lists, structured
date/time values, or null.  A structured date value is carried together with
the string its `isoformat()` produces.  Date-string parsing
(`dateutil_parser.parse(...).isoformat()`) is a collaborator and is injected:
`parseDate s = none` models the `(ValueError, TypeError, OverflowError)`
branch. -/

inductive MetaValue where
  | vStr (s : String)
  | vBool (b : Bool)
  | vInt (n : Int)
  | vList (xs : List MetaValue)
  | vDate (iso : String)
  | vNull

abbrev Metadata := List (String × MetaValue)

/-- `metadata.get(k)`. -/
def mget (md : Metadata) (k : String) : Option MetaValue :=
  (md.find? (fun kv => kv.1 == k)).map (fun kv => kv.2)

/-- Python truthiness of a front-matter value. -/
def truthy : MetaValue → Bool
  | .vStr s => s ≠ ""
  | .vBool b => b
  | .vInt n => n ≠ 0
  | .vList xs => ¬ xs.isEmpty
  | .vDate _ => true
  | .vNull => false

mutual

/-- Python `str(...)` on a front-matter value. -/
def pyStr : MetaValue → String
  | .vStr s => s
  | .vBool b => if b then "True" else "False"
  | .vInt n => toString n
  | .vList xs => "[" ++ String.intercalate ", " (pyStrList xs) ++ "]"
  | .vDate iso => iso
  | .vNull => "None"

/-- Elements of a rendered list use `repr`: strings are quoted
(escaping elided), other values render as `str`. -/
def pyStrList : List MetaValue → List String
  | [] => []
  | .vStr s :: vs => ("'" ++ s ++ "'") :: pyStrList vs
  | v :: vs => pyStr v :: pyStrList vs

end

/-- Lines 126–138: the normalized date string, plus whether the
parse-failure warning was printed.  `date_str` stays `None` on failure. -/
def normalizeDate (parseDate : String → Option String) (md : Metadata) :
    Option String × Bool :=
  match mget md "date" with
  | none => (none, false)
  | some date_val =>
    if truthy date_val then
      match date_val with
      | .vDate iso => (some iso, false)
      | v =>
        match parseDate (pyStr v) with
        | some s => (some s, false)
        | none => (none, true)
    else (none, false)

/-- Lines 140–141: `metadata.get('categories', metadata.get('category'))`. -/
def rawCategories (md : Metadata) : Option MetaValue :=
  match mget md "categories" with
  | some v => some v
  | none => mget md "category"

/-- List-comprehension `[f(x) for x in xs if f(x)]` over stringified,
stripped elements, dropping falsy (empty) results. -/
def stripDropEmpty (xs : List String) : List String :=
  xs.filterMap (fun x => if pyStrip x ≠ "" then some (pyStrip x) else none)

/-- Lines 140–147: the categories list passed on by `main`. -/
def categoriesFromMeta (md : Metadata) (default_post_category_str : String) :
    List String :=
  let categories : List String :=
    match rawCategories md with
    | some (.vStr s) => (pySplit ',' s).map pyStrip
    | some (.vList xs) => stripDropEmpty (xs.map pyStr)
    | _ => []
  if categories.isEmpty ∧ default_post_category_str ≠ "" then
    stripDropEmpty (pySplit ',' default_post_category_str)
  else categories

/-- Lines 158–162: publish status. -/
def statusFromMeta (md : Metadata) (default_post_status : String) : String :=
  match mget md "draft" with
  | some (.vBool b) => if b then "draft" else "publish"
  | _ =>
    match mget md "status" with
    | some v => if truthy v then pyLower (pyStr v) else default_post_status
    | none => default_post_status

/-- Line 173: `categories=categories if categories else None`. -/
def categoriesArg (categories : List String) : Option (List String) :=
  if categories.isEmpty then none else some categories

/-- `wp_post_creator` lines 44–45: `if categories: payload['categories'] = …`. -/
def payloadCategories (categories : Option (List String)) : Option (List String) :=
  match categories with
  | some cs => if cs.isEmpty then none else some cs
  | none => none

/-- `wp_post_creator` lines 42–43: `if date: payload['date'] = date`. -/
def payloadDate (date : Option String) : Option String :=
  match date with
  | some d => if d ≠ "" then some d else none
  | none => none

/-- The categories field of the payload, composed across `main` and
`create_wordpress_post`. -/
def payloadCategoriesOfMeta (md : Metadata) (dflt : String) : Option (List String) :=
  payloadCategories (categoriesArg (categoriesFromMeta md dflt))

/-- The date field of the payload, composed across `main` and
`create_wordpress_post`. -/
def payloadDateOfMeta (parseDate : String → Option String) (md : Metadata) :
    Option String :=
  payloadDate (normalizeDate parseDate md).1

/-! ## Relations and predicates used in the claim statements -/

/-- Per-tag outcome of the rewrite pass: either the tag is untouched, or its
`src` was replaced by exactly the non-empty `URL` field of some successful
response of the injected uploader and `srcset` was dropped. -/
def TagOutcome (uploader_func : Uploader) (dry_run : Bool) (t t' : ImgAttrs) : Prop :=
  t' = t ∨
    ∃ p n d u, uploader_func p n dry_run = some d ∧ dictGet d "URL" = some u ∧
      u ≠ "" ∧ t' = { t with src := some u, srcset := none }

/-- Per-node outcome: text is reproduced verbatim, `img` tags follow
`TagOutcome`. -/
def NodeOutcome (uploader_func : Uploader) (dry_run : Bool) : Node → Node → Prop
  | .text s, n' => n' = .text s
  | .img t, n' => ∃ t', n' = .img t' ∧ TagOutcome uploader_func dry_run t t'

/-- Every `img` tag of the document that carries a `src` points at a remote
URL with a network scheme. -/
def allImgsRemote (d : Doc) : Bool :=
  d.all fun n =>
    match n with
    | .img t =>
      match t.src with
      | some s => pyStartsWith s "http://" || pyStartsWith s "https://"
      | none => true
    | .text _ => true

/-! ## Claim-side definitions (stated from the claims, for comparison with
the source-side definitions above) and concrete environments -/

/-- Cleaning as claim C4 words it: strip a fragment component (first `#`),
strip a query-string component (first `?`), percent-decode the remainder.
Stated from the claim for comparison with the source's `cleanedSrcOf`. -/
def claimC4Cleaned (s : String) : String :=
  unquote (String.mk (takeUntil '?' (takeUntil '#' s.data)))

/-- The categories rule exactly as claim C2 words it: the comma-separated
string case also drops empty trimmed segments, and the fallback applies
whenever the result so far is empty.  Stated from the claim for comparison
with the source's `categoriesFromMeta`. -/
def claimC2Categories (md : Metadata) (dflt : String) : List String :=
  let cats : List String :=
    match rawCategories md with
    | some (.vStr s) => stripDropEmpty (pySplit ',' s)
    | some (.vList xs) => stripDropEmpty (xs.map pyStr)
    | _ => []
  if cats.isEmpty then stripDropEmpty (pySplit ',' dflt) else cats

/-- The date rule exactly as claim C6 words it: a present date field is
formatted directly when structured, otherwise parsed, with a diagnostic and
omission on parse failure.  Stated from the claim for comparison with the
source's `normalizeDate`. -/
def claimC6Date (parseDate : String → Option String) (md : Metadata) :
    Option String × Bool :=
  match mget md "date" with
  | none => (none, false)
  | some (.vDate iso) => (some iso, false)
  | some v =>
    match parseDate (pyStr v) with
    | some s => (some s, false)
    | none => (none, true)

/-- The status rule as claim C7 words it (presence-and-non-emptiness of the
status field read as Python truthiness, as in the source's guard).  Stated
from the claim for comparison with the source's `statusFromMeta`. -/
def claimC7Status (md : Metadata) (dflt : String) : String :=
  match mget md "draft" with
  | some (.vBool true) => "draft"
  | some (.vBool false) => "publish"
  | _ =>
    match mget md "status" with
    | some v => if truthy v then pyLower (pyStr v) else dflt
    | none => dflt

/-- Concrete environment for witnesses: every path exists, every candidate
static root is a directory, `abspath` prefixes `/abs/`. -/
def envAll : Env :=
  ⟨fun _ => true, fun _ => true, fun p => "/abs/" ++ p⟩

/-- Environment whose `isdir` is everywhere false (an invalid static root). -/
def envNoDir : Env :=
  ⟨fun _ => true, fun _ => false, fun p => "/abs/" ++ p⟩

/-! ## Helper lemmas -/

theorem processDoc_nil (env : Env) (base : String) (static : Option String)
    (up : Uploader) (dry : Bool) :
    processDoc env base static up dry [] = ([], 0, [], []) := rfl

theorem processDoc_cons_text (env : Env) (base : String) (static : Option String)
    (up : Uploader) (dry : Bool) (s : String) (ns : Doc) :
    processDoc env base static up dry (.text s :: ns) =
      ((.text s :: (processDoc env base static up dry ns).1),
        (processDoc env base static up dry ns).2) := rfl

theorem processDoc_cons_img (env : Env) (base : String) (static : Option String)
    (up : Uploader) (dry : Bool) (t : ImgAttrs) (ns : Doc) :
    processDoc env base static up dry (.img t :: ns) =
      (.img (processImgTag env base static up dry t).1 ::
          (processDoc env base static up dry ns).1,
        (processImgTag env base static up dry t).2.1 +
          (processDoc env base static up dry ns).2.1,
        (processImgTag env base static up dry t).2.2.1 ++
          (processDoc env base static up dry ns).2.2.1,
        (processImgTag env base static up dry t).2.2.2 ++
          (processDoc env base static up dry ns).2.2.2) := rfl

/-- A tag whose `src` is external is returned untouched, with no count,
no uploader call, and only the informational skip line. -/
theorem processImgTag_external (env : Env) (base : String) (static : Option String)
    (up : Uploader) (dry : Bool) (t : ImgAttrs) (s : String)
    (hsrc : t.src = some s) (hext : isExternalSrc s = true) :
    processImgTag env base static up dry t = (t, 0, [], [.skipExternal s]) := by
  unfold processImgTag
  rw [hsrc]
  simp [hext]

/-- Case analysis of one tag's rewrite: the outcome relation always holds. -/
theorem processImgTag_outcome (env : Env) (base : String) (static : Option String)
    (up : Uploader) (dry : Bool) (t : ImgAttrs) :
    TagOutcome up dry t (processImgTag env base static up dry t).1 := by
  unfold processImgTag TagOutcome
  cases hsrc : t.src with
  | none => exact Or.inl rfl
  | some s =>
    by_cases hext : isExternalSrc s
    · simp [hext]
    · simp only [hext, if_neg, Bool.false_eq_true, if_false]
      cases hres : resolveLocal env base static (cleanedSrcOf s) with
      | none => simp
      | some p =>
        simp only
        split
        · cases hresp : up p (basename (cleanedSrcOf s)) dry with
          | none => simp [hresp]
          | some d =>
            simp only [hresp]
            cases hurl : dictGet d "URL" with
            | none => simp
            | some u =>
              simp only
              split
              · right
                exact ⟨p, basename (cleanedSrcOf s), d, u, hresp, hurl, by assumption, rfl⟩
              · simp
        · split <;> simp

/-! ## Claims -/

/-- Claim C1: for every input HTML document and every image tag in it, the
rewrite operation leaves the tag's `src` attribute identical to its input
value, or replaces it with exactly the non-empty `URL` field of a successful
upload response, removing any `srcset` attribute in the replacement case;
text and all other attributes are reproduced verbatim. -/
theorem C1_img_rewrite_invariant (env : Env) (html : Doc) (base : String)
    (static : Option String) (up : Uploader) (dry : Bool) :
    List.Forall₂ (NodeOutcome up dry) html
      (process_html_images env html base static up dry).1 := by
  unfold process_html_images
  induction html with
  | nil => exact List.Forall₂.nil
  | cons n ns ih =>
    cases n with
    | text s =>
      rw [processDoc_cons_text]
      exact List.Forall₂.cons rfl ih
    | img t =>
      rw [processDoc_cons_img]
      exact List.Forall₂.cons
        ⟨(processImgTag env base static up dry t).1, rfl,
          processImgTag_outcome env base static up dry t⟩ ih

/-- A run of text-only nodes passes through unchanged, contributing nothing. -/
theorem processDoc_allText (env : Env) (base : String) (static : Option String)
    (up : Uploader) (dry : Bool) (l : Doc) (h : ∀ n ∈ l, n.isText = true) :
    processDoc env base static up dry l = (l, 0, [], []) := by
  induction l with
  | nil => rfl
  | cons n ns ih =>
    cases n with
    | text s =>
      rw [processDoc_cons_text, ih (fun m hm => h m (List.mem_cons_of_mem _ hm))]
    | img t =>
      exact absurd (h (.img t) (List.mem_cons_self _ _)) (by simp [Node.isText])

/-- A document whose image references all carry a network scheme passes
through unchanged: zero count, no uploader calls. -/
theorem processDoc_allRemote (env : Env) (base : String) (static : Option String)
    (up : Uploader) (dry : Bool) (l : Doc) (h : allImgsRemote l = true) :
    (processDoc env base static up dry l).1 = l ∧
      (processDoc env base static up dry l).2.1 = 0 ∧
      (processDoc env base static up dry l).2.2.1 = [] := by
  induction l with
  | nil => exact ⟨rfl, rfl, rfl⟩
  | cons n ns ih =>
    unfold allImgsRemote at h
    rw [List.all_cons, Bool.and_eq_true] at h
    obtain ⟨hn, hns⟩ := h
    obtain ⟨ih1, ih2, ih3⟩ := ih hns
    cases n with
    | text s => rw [processDoc_cons_text]; exact ⟨by rw [ih1], ih2, ih3⟩
    | img t =>
      have hn' : (match t.src with
          | some s => pyStartsWith s "http://" || pyStartsWith s "https://"
          | none => true) = true := hn
      rw [processDoc_cons_img]
      cases hsrc : t.src with
      | none =>
        have htag : processImgTag env base static up dry t = (t, 0, [], []) := by
          unfold processImgTag; rw [hsrc]
        rw [htag]
        exact ⟨by rw [ih1], by simpa using ih2, by simpa using ih3⟩
      | some s =>
        have hext : isExternalSrc s = true := by
          rw [hsrc] at hn'
          unfold isExternalSrc
          rcases Bool.or_eq_true _ _ ▸ hn' with h1 | h2
          · simp [h1]
          · simp [h2]
        rw [processImgTag_external env base static up dry t s hsrc hext]
        exact ⟨by rw [ih1], by simpa using ih2, by simpa using ih3⟩

/-- Claim C3: an HTML document whose single image tag has an external `src`
(`http://`, `https://` or `//` prefix) is returned byte-identical, with count
0 and no uploader invocation. -/
theorem C3_external_untouched (env : Env) (base : String) (static : Option String)
    (up : Uploader) (dry : Bool) (pre post : Doc) (t : ImgAttrs) (s : String)
    (hpre : ∀ n ∈ pre, n.isText = true) (hpost : ∀ n ∈ post, n.isText = true)
    (hsrc : t.src = some s) (hext : isExternalSrc s = true) :
    (process_html_images env (pre ++ .img t :: post) base static up dry).1 =
        pre ++ .img t :: post ∧
      (process_html_images env (pre ++ .img t :: post) base static up dry).2.1 = 0 ∧
      (process_html_images env (pre ++ .img t :: post) base static up dry).2.2.1 = [] ∧
      render (process_html_images env (pre ++ .img t :: post) base static up dry).1 =
        render (pre ++ .img t :: post) := by
  unfold process_html_images
  have key : processDoc env base static up dry (pre ++ .img t :: post) =
      (pre ++ .img t :: post, 0, [], [.skipExternal s]) := by
    induction pre with
    | nil =>
      rw [List.nil_append, processDoc_cons_img,
        processImgTag_external env base static up dry t s hsrc hext,
        processDoc_allText env base static up dry post hpost]
      rfl
    | cons n ns ih =>
      cases n with
      | text str =>
        rw [List.cons_append, processDoc_cons_text,
          ih (fun m hm => hpre m (List.mem_cons_of_mem _ hm))]
      | img t' =>
        exact absurd (hpre (.img t') (List.mem_cons_self _ _)) (by simp [Node.isText])
  rw [key]
  exact ⟨rfl, rfl, rfl, rfl⟩

/-- Witness for C3 at a concrete document with one protocol-external image. -/
theorem C3_external_untouched_witness :
    (∀ n ∈ [Node.text "<p>"], n.isText = true) ∧
    (∀ n ∈ [Node.text "</p>"], n.isText = true) ∧
    (ImgAttrs.mk (some "http://example.com/remote.jpg") none [("alt", "Remote")]).src
      = some "http://example.com/remote.jpg" ∧
    isExternalSrc "http://example.com/remote.jpg" = true ∧
    (process_html_images ⟨fun _ => true, fun _ => true, fun p => p⟩
        ([Node.text "<p>"] ++
          .img ⟨some "http://example.com/remote.jpg", none, [("alt", "Remote")]⟩ ::
            [Node.text "</p>"])
        "content/posts" (some "/static") (fun _ _ _ => none) false).1 =
      [Node.text "<p>"] ++
        .img ⟨some "http://example.com/remote.jpg", none, [("alt", "Remote")]⟩ ::
          [Node.text "</p>"] := by
  refine ⟨by decide, by decide, rfl, by decide, ?_⟩
  exact (C3_external_untouched ⟨fun _ => true, fun _ => true, fun p => p⟩
    "content/posts" (some "/static") (fun _ _ _ => none) false
    [Node.text "<p>"] [Node.text "</p>"] _ _
    (by decide) (by decide) rfl (by decide)).1

/-- Claim C9: a second run of the rewrite pass on a first pass's output in
which every image reference has become external (a remote URL with a network
scheme) returns that output unchanged — byte-identical rendering — with
count 0 and no uploader invocation. -/
theorem C9_idempotent_after_rewrite (env : Env) (doc : Doc) (base : String)
    (static : Option String) (up : Uploader) (dry : Bool)
    (h : allImgsRemote (process_html_images env doc base static up dry).1 = true) :
    (process_html_images env
        (process_html_images env doc base static up dry).1 base static up dry).1 =
      (process_html_images env doc base static up dry).1 ∧
    (process_html_images env
        (process_html_images env doc base static up dry).1 base static up dry).2.1 = 0 ∧
    (process_html_images env
        (process_html_images env doc base static up dry).1 base static up dry).2.2.1 = [] ∧
    render (process_html_images env
        (process_html_images env doc base static up dry).1 base static up dry).1 =
      render (process_html_images env doc base static up dry).1 := by
  obtain ⟨h1, h2, h3⟩ := processDoc_allRemote env base static up dry
    (process_html_images env doc base static up dry).1 h
  exact ⟨h1, h2, h3, congrArg render h1⟩

/-- Witness for C9: one local image uploaded on the first pass; the second
pass leaves the rewritten document unchanged. -/
theorem C9_idempotent_after_rewrite_witness :
    allImgsRemote (process_html_images ⟨fun _ => true, fun _ => true, fun p => p⟩
        [Node.img ⟨some "a.png", none, []⟩] "base" (some "/static")
        (fun _ _ _ => some [("URL", "https://w.files.wordpress.com/u.jpg")]) false).1
      = true ∧
    (process_html_images ⟨fun _ => true, fun _ => true, fun p => p⟩
        (process_html_images ⟨fun _ => true, fun _ => true, fun p => p⟩
          [Node.img ⟨some "a.png", none, []⟩] "base" (some "/static")
          (fun _ _ _ => some [("URL", "https://w.files.wordpress.com/u.jpg")]) false).1
        "base" (some "/static")
        (fun _ _ _ => some [("URL", "https://w.files.wordpress.com/u.jpg")]) false).1 =
      (process_html_images ⟨fun _ => true, fun _ => true, fun p => p⟩
        [Node.img ⟨some "a.png", none, []⟩] "base" (some "/static")
        (fun _ _ _ => some [("URL", "https://w.files.wordpress.com/u.jpg")]) false).1 :=
  ⟨by decide,
    (C9_idempotent_after_rewrite ⟨fun _ => true, fun _ => true, fun p => p⟩
      [Node.img ⟨some "a.png", none, []⟩] "base" (some "/static")
      (fun _ _ _ => some [("URL", "https://w.files.wordpress.com/u.jpg")]) false
      (by decide)).1⟩

/-- Counterexample to claim C4: for the non-external reference
`photo.png;v=2`, the code's cleaned path also strips the URL
path-parameters component, so the filename passed to upload is `photo.png`,
not the `photo.png;v=2` that stripping only query and fragment would give. -/
theorem C4_counterexample :
    isExternalSrc "photo.png;v=2" = false ∧
    cleanedSrcOf "photo.png;v=2" = "photo.png" ∧
    claimC4Cleaned "photo.png;v=2" = "photo.png;v=2" ∧
    basename (claimC4Cleaned "photo.png;v=2") = "photo.png;v=2" ∧
    (processImgTag envAll "base" (some "/static") (fun _ _ _ => none) false
        ⟨some "photo.png;v=2", none, []⟩).2.2.1 =
      [⟨"/abs/base/photo.png", "photo.png", false⟩] ∧
    ¬ (processImgTag envAll "base" (some "/static") (fun _ _ _ => none) false
        ⟨some "photo.png;v=2", none, []⟩).2.2.1 =
      [⟨"/abs/base/photo.png", basename (claimC4Cleaned "photo.png;v=2"), false⟩] := by
  refine ⟨by decide, by decide, by decide, by decide, by decide, by decide⟩

/-- Claim C4 as amended: the cleaned path is the percent-decoded path
component of generic URL parsing of the raw `src` (which strips scheme,
network location and trailing path parameters in addition to query string
and fragment); every uploader invocation for the tag uses the final path
segment of that cleaned path as filename, a local path resolved from that
cleaned path, and the current dry-run flag. -/
theorem C4_cleaned_path_naming (env : Env) (base : String)
    (static : Option String) (up : Uploader) (dry : Bool) (t : ImgAttrs)
    (s : String) (hsrc : t.src = some s) (hext : isExternalSrc s = false) :
    ∀ c ∈ (processImgTag env base static up dry t).2.2.1,
      c.name = basename (cleanedSrcOf s) ∧
      resolveLocal env base static (cleanedSrcOf s) = some c.path ∧
      c.dry = dry := by
  unfold processImgTag
  rw [hsrc]
  simp only [hext, Bool.false_eq_true, if_false]
  cases hres : resolveLocal env base static (cleanedSrcOf s) with
  | none => simp
  | some p =>
    simp only
    split
    · intro c hc
      revert hc
      split
      all_goals try split
      all_goals try split
      all_goals
        intro hc
        simp only [List.mem_singleton] at hc
        subst hc
        exact ⟨rfl, rfl, rfl⟩
    · split
      · simp
      · simp

/-- Witness for the amended C4 at the claim's own example `photo.png?v=2`:
the reference resolves and uploads with filename `photo.png`. -/
theorem C4_cleaned_path_naming_witness :
    (⟨some "photo.png?v=2", none, []⟩ : ImgAttrs).src = some "photo.png?v=2" ∧
    isExternalSrc "photo.png?v=2" = false ∧
    basename (cleanedSrcOf "photo.png?v=2") = "photo.png" ∧
    (∀ c ∈ (processImgTag envAll "base" (some "/static")
        (fun _ _ _ => some [("URL", "https://w/u.jpg")]) false
        ⟨some "photo.png?v=2", none, []⟩).2.2.1,
      c.name = basename (cleanedSrcOf "photo.png?v=2") ∧
      resolveLocal envAll "base" (some "/static")
        (cleanedSrcOf "photo.png?v=2") = some c.path ∧
      c.dry = false) := by
  refine ⟨rfl, by decide, by decide, ?_⟩
  exact C4_cleaned_path_naming envAll "base" (some "/static")
    (fun _ _ _ => some [("URL", "https://w/u.jpg")]) false
    ⟨some "photo.png?v=2", none, []⟩ "photo.png?v=2" rfl (by decide)

/-- Claim C5: a reference whose cleaned path starts with a separator
resolves to `join(static_path, cleaned path without leading separators)`
when the static root is present, non-empty and an existing directory;
otherwise the tag is left untouched and uncounted, with no upload attempt
and only the warning diagnostic. -/
theorem C5_absolute_reference_resolution (env : Env) (base : String)
    (static : Option String) (up : Uploader) (dry : Bool) (t : ImgAttrs)
    (s : String) (hsrc : t.src = some s) (hext : isExternalSrc s = false)
    (habs : pyStartsWith (cleanedSrcOf s) "/" = true) :
    (∀ sp, static = some sp → sp ≠ "" → env.isdir sp = true →
      resolveLocal env base static (cleanedSrcOf s) =
        some (ospJoin sp (lstripSlash (cleanedSrcOf s)))) ∧
    ((static = none ∨ ∃ sp, static = some sp ∧ (sp = "" ∨ env.isdir sp = false)) →
      processImgTag env base static up dry t =
        (t, 0, [], [.warnAbsoluteNoStatic s (cleanedSrcOf s) static])) := by
  constructor
  · intro sp hsp hne hdir
    subst hsp
    unfold resolveLocal
    rw [habs]
    simp [hne, hdir]
  · intro h
    have hres : resolveLocal env base static (cleanedSrcOf s) = none := by
      unfold resolveLocal
      rw [habs]
      rcases h with h | ⟨sp, hsp, h2⟩
      · subst h; rfl
      · subst hsp
        rcases h2 with h2 | h2
        · simp [h2]
        · simp [h2]
    unfold processImgTag
    rw [hsrc]
    simp only [hext, Bool.false_eq_true, if_false]
    rw [hres]

/-- Witness for C5: `/img/a.gif` with a static root that is not a directory
is left untouched and uncounted. -/
theorem C5_absolute_reference_resolution_witness :
    (⟨some "/img/a.gif", none, []⟩ : ImgAttrs).src = some "/img/a.gif" ∧
    isExternalSrc "/img/a.gif" = false ∧
    pyStartsWith (cleanedSrcOf "/img/a.gif") "/" = true ∧
    processImgTag envNoDir "base" (some "/static") (fun _ _ _ => none) false
        ⟨some "/img/a.gif", none, []⟩ =
      (⟨some "/img/a.gif", none, []⟩, 0, [],
        [.warnAbsoluteNoStatic "/img/a.gif" (cleanedSrcOf "/img/a.gif")
          (some "/static")]) :=
  ⟨rfl, by decide, by decide,
    (C5_absolute_reference_resolution envNoDir "base" (some "/static")
      (fun _ _ _ => none) false _ _ rfl (by decide) (by decide)).2
      (Or.inr ⟨"/static", rfl, Or.inr rfl⟩)⟩

/-- Claim C8: when the resolved local path exists but the uploader returns an
absent response or one lacking the `URL` field, the tag is left untouched and
uncounted, the failure diagnostic carries any `message` field present, and the
remaining nodes of the document are processed exactly as they would be on
their own. -/
theorem C8_upload_failure_continues (env : Env) (base : String)
    (static : Option String) (up : Uploader) (dry : Bool) (t : ImgAttrs)
    (s p : String) (hsrc : t.src = some s) (hext : isExternalSrc s = false)
    (hres : resolveLocal env base static (cleanedSrcOf s) = some p)
    (hne : p ≠ "") (hexists : env.pathExists p = true)
    (hfail : up p (basename (cleanedSrcOf s)) dry = none ∨
      ∃ d, up p (basename (cleanedSrcOf s)) dry = some d ∧
        dictGet d "URL" = none) :
    processImgTag env base static up dry t =
      (t, 0, [⟨p, basename (cleanedSrcOf s), dry⟩],
        [.foundLocal s (cleanedSrcOf s) p,
          .uploadFailed s
            (match up p (basename (cleanedSrcOf s)) dry with
              | some d => (dictGet d "message").getD "Unknown error"
              | none => "Unknown error or None response")]) ∧
    ∀ ns, processDoc env base static up dry (.img t :: ns) =
      (.img t :: (processDoc env base static up dry ns).1,
        (processDoc env base static up dry ns).2.1,
        ⟨p, basename (cleanedSrcOf s), dry⟩ ::
          (processDoc env base static up dry ns).2.2.1,
        [.foundLocal s (cleanedSrcOf s) p,
          .uploadFailed s
            (match up p (basename (cleanedSrcOf s)) dry with
              | some d => (dictGet d "message").getD "Unknown error"
              | none => "Unknown error or None response")] ++
          (processDoc env base static up dry ns).2.2.2) := by
  have htag : processImgTag env base static up dry t =
      (t, 0, [⟨p, basename (cleanedSrcOf s), dry⟩],
        [.foundLocal s (cleanedSrcOf s) p,
          .uploadFailed s
            (match up p (basename (cleanedSrcOf s)) dry with
              | some d => (dictGet d "message").getD "Unknown error"
              | none => "Unknown error or None response")]) := by
    unfold processImgTag
    rw [hsrc]
    simp only [hext, Bool.false_eq_true, if_false]
    rw [hres]
    simp only [hne, hexists, ne_eq, not_false_eq_true, and_self, if_true]
    rcases hfail with hnone | ⟨d, hd, hurl⟩
    · rw [hnone]
    · rw [hd]
      simp [hurl]
  refine ⟨htag, fun ns => ?_⟩
  rw [processDoc_cons_img, htag]
  simp

/-- Witness for C8: a failing upload response carrying a `message` field
leaves the tag untouched and surfaces `boom` in the diagnostic. -/
theorem C8_upload_failure_continues_witness :
    resolveLocal envAll "base" (some "/static") (cleanedSrcOf "b.png") =
        some "/abs/base/b.png" ∧
    envAll.pathExists "/abs/base/b.png" = true ∧
    processImgTag envAll "base" (some "/static")
        (fun _ _ _ => some [("message", "boom")]) false
        ⟨some "b.png", none, []⟩ =
      (⟨some "b.png", none, []⟩, 0, [⟨"/abs/base/b.png", "b.png", false⟩],
        [.foundLocal "b.png" (cleanedSrcOf "b.png") "/abs/base/b.png",
          .uploadFailed "b.png" "boom"]) := by
  refine ⟨by decide, rfl, ?_⟩
  exact (C8_upload_failure_continues envAll "base" (some "/static")
    (fun _ _ _ => some [("message", "boom")]) false ⟨some "b.png", none, []⟩
    "b.png" "/abs/base/b.png" rfl (by decide) (by decide) (by decide) rfl
    (Or.inr ⟨[("message", "boom")], rfl, rfl⟩)).1

/-- Counterexample to claim C2: for `categories: "A,,B"` the code keeps the
empty middle segment (`split` then `strip` with no filtering), while the
claim's rule would drop it; the non-empty list `["A", "", "B"]` is then
passed downstream as-is. -/
theorem C2_counterexample :
    categoriesFromMeta [("categories", MetaValue.vStr "A,,B")] "" =
        ["A", "", "B"] ∧
    claimC2Categories [("categories", MetaValue.vStr "A,,B")] "" = ["A", "B"] ∧
    categoriesFromMeta [("categories", MetaValue.vStr "A,,B")] "" ≠
      claimC2Categories [("categories", MetaValue.vStr "A,,B")] "" ∧
    payloadCategoriesOfMeta [("categories", MetaValue.vStr "A,,B")] "" =
      some ["A", "", "B"] := by
  refine ⟨by decide, by decide, by decide, by decide⟩

/-- Falling back to an empty list on emptiness changes nothing. -/
theorem emptyFallbackNoop (c : List String) :
    c = if c.isEmpty = true then ([] : List String) else c := by
  cases c <;> simp

/-- Claim C2 as amended: plural key before singular; a string value is split
on commas with each segment trimmed but empty segments kept; a list value is
stringified and trimmed with empty elements dropped; when the result is empty
the run-wide default categories string is split the same trimming-and-dropping
way (the source's extra non-empty-default guard is equivalent, since splitting
an empty default also yields nothing); an empty final list yields no
categories field downstream, and a non-empty one is passed as-is. -/
theorem C2_categories_rule (md : Metadata) (dflt : String) :
    categoriesFromMeta md dflt =
      (let cats : List String :=
        match rawCategories md with
        | some (.vStr s) => (pySplit ',' s).map pyStrip
        | some (.vList xs) => stripDropEmpty (xs.map pyStr)
        | _ => []
      if cats.isEmpty then stripDropEmpty (pySplit ',' dflt) else cats) ∧
    payloadCategoriesOfMeta md dflt =
      (if (categoriesFromMeta md dflt).isEmpty then none
       else some (categoriesFromMeta md dflt)) := by
  constructor
  · unfold categoriesFromMeta
    by_cases hd : dflt = ""
    · subst hd
      simp only [ne_eq, not_true_eq_false, and_false, if_false]
      have hz : stripDropEmpty (pySplit ',' "") = [] := by decide
      rw [hz]
      exact emptyFallbackNoop _
    · simp only [ne_eq, hd, not_false_eq_true, and_true]
  · unfold payloadCategoriesOfMeta payloadCategories categoriesArg
    by_cases he : (categoriesFromMeta md dflt).isEmpty
    · simp [he]
    · simp [he]

/-- Counterexample to claim C6: a present but empty date string is skipped by
the code's truthiness guard with no parse attempt and no diagnostic, while the
claim's rule (the field being present, and any parse of the empty string
failing) requires a diagnostic. -/
theorem C6_counterexample :
    normalizeDate (fun _ => none) [("date", MetaValue.vStr "")] =
        (none, false) ∧
    claimC6Date (fun _ => none) [("date", MetaValue.vStr "")] = (none, true) ∧
    normalizeDate (fun _ => none) [("date", MetaValue.vStr "")] ≠
      claimC6Date (fun _ => none) [("date", MetaValue.vStr "")] := by
  refine ⟨rfl, rfl, by simp [normalizeDate, claimC6Date, mget, truthy]⟩

/-- Claim C6 as amended: for a date field that is present and truthy
(non-empty), a structured value is formatted directly without reparsing and
any other value is parsed; parse failure yields a diagnostic and omission; a
missing or falsy date field is silently omitted; an omitted date stays
omitted downstream. -/
theorem C6_date_rule (parseDate : String → Option String) (md : Metadata) :
    normalizeDate parseDate md =
      (match mget md "date" with
        | none => (none, false)
        | some v =>
          if truthy v = false then (none, false)
          else
            match v with
            | .vDate iso => (some iso, false)
            | v =>
              match parseDate (pyStr v) with
              | some s => (some s, false)
              | none => (none, true)) ∧
    ((normalizeDate parseDate md).1 = none → payloadDateOfMeta parseDate md = none) := by
  constructor
  · unfold normalizeDate
    cases hv : mget md "date" with
    | none => rfl
    | some v => cases ht : truthy v <;> simp [ht]
  · intro h
    unfold payloadDateOfMeta payloadDate
    rw [h]

/-- Witness for the amended C6: an unparseable non-empty date string yields a
diagnostic and no downstream date field. -/
theorem C6_date_rule_witness :
    normalizeDate (fun _ => none) [("date", MetaValue.vStr "junk")] =
        (none, true) ∧
    (normalizeDate (fun _ => none) [("date", MetaValue.vStr "junk")]).1 = none ∧
    payloadDateOfMeta (fun _ => none) [("date", MetaValue.vStr "junk")] = none := by
  refine ⟨rfl, rfl, ?_⟩
  exact (C6_date_rule (fun _ => none) [("date", MetaValue.vStr "junk")]).2 rfl

/-- Claim C7: the normalized status is `draft` for boolean `draft: true`,
`publish` for boolean `draft: false`, the lower-cased status field when
`draft` is not boolean and `status` is present and truthy, and the run-wide
default otherwise. -/
theorem C7_status_rule (md : Metadata) (dflt : String) :
    statusFromMeta md dflt = claimC7Status md dflt := by
  unfold statusFromMeta claimC7Status
  cases hv : mget md "draft" with
  | none => rfl
  | some v =>
    cases v with
    | vBool b => cases b <;> rfl
    | vStr s => rfl
    | vInt n => rfl
    | vList xs => rfl
    | vDate iso => rfl
    | vNull => rfl

/-- Claim C10: the upload adapter returns `None` for a missing local file,
without attempting any network upload, in dry-run mode just as in live mode. -/
theorem C10_missing_file_fails (env : Env) (net : String → String → Option RespDict)
    (site_id image_path image_name : String) (dry_run : Bool)
    (h : env.pathExists image_path = false) :
    upload_image_to_wordpress env net site_id image_path image_name dry_run =
      (none, false) := by
  unfold upload_image_to_wordpress
  simp [h]

/-- Witness for C10 in dry-run mode: the missing file yields failure, not a
synthetic success. -/
theorem C10_missing_file_fails_witness :
    (Env.mk (fun _ => false) (fun _ => true) id).pathExists "/p/a.jpg" = false ∧
    upload_image_to_wordpress (Env.mk (fun _ => false) (fun _ => true) id)
        (fun _ _ => some [("URL", "u")]) "site" "/p/a.jpg" "a.jpg" true =
      (none, false) :=
  ⟨rfl, C10_missing_file_fails (Env.mk (fun _ => false) (fun _ => true) id)
    (fun _ _ => some [("URL", "u")]) "site" "/p/a.jpg" "a.jpg" true rfl⟩

end Hugo2Wp
